import Mathlib

/-!
Verification of `scripts/generate_gmxFF_cofactors.py` (AMBERly).

The script drives external tools (tleap, antechamber, parmchk2) and
post-processes the generated GROMACS topology text.  We embed its pure
logic shallowly:

* lines of a text file are a `List String`;
* Python string primitives (`strip`, `upper`, `startswith`, whitespace
  `split`, `isalpha` filtering) are re-implemented over `String.data`;
* the outcomes of external subprocess calls and of filesystem probes are
  an explicit environment record, and `main`'s orchestration becomes a
  function from that environment to the trace of subprocess calls plus
  the process exit status.
-/

/-- ASCII whitespace, as recognised by Python's `str.strip` / `str.split`. -/
def pyIsSpace (c : Char) : Bool :=
  c == ' ' || c == '\t' || c == '\n' || c == '\x0d' || c == '\x0b' || c == '\x0c'

/-- Python `str.strip()`: drop leading and trailing whitespace. -/
def pyStrip (s : String) : String :=
  ⟨((s.data.dropWhile pyIsSpace).reverse.dropWhile pyIsSpace).reverse⟩

/-- Python `str.upper()` (ASCII range, which is all the script compares). -/
def pyUpper (s : String) : String :=
  ⟨s.data.map Char.toUpper⟩

/-- Python `str.startswith(p)`. -/
def pyStartsWith (s p : String) : Bool :=
  List.isPrefixOf p.data s.data

/-- Helper for `pySplit`: accumulate the current (reversed) field. -/
def pySplitAux : List Char → List Char → List String
  | [], acc => if acc.isEmpty then [] else [⟨acc.reverse⟩]
  | c :: cs, acc =>
    if pyIsSpace c then
      if acc.isEmpty then pySplitAux cs [] else ⟨acc.reverse⟩ :: pySplitAux cs []
    else
      pySplitAux cs (c :: acc)

/-- Python `str.split()` with no argument: split on whitespace runs,
dropping empty fields. -/
def pySplit (s : String) : List String :=
  pySplitAux s.data []

/-- `''.join(c for c in s if c.isalpha())`. -/
def onlyAlpha (s : String) : String :=
  ⟨s.data.filter Char.isAlpha⟩

/-! ## Metal Detector (`mol2_has_metal`, source lines 14-42) -/

/-- The fixed metal-symbol set of `mol2_has_metal`. -/
def metals : List String :=
  ["Fe", "Cu", "Zn", "Mg", "Mn", "Co", "Ni", "Mo", "W", "V", "Ca", "K", "Na"]

/-- The inner `canon` of `mol2_has_metal`: empty stays empty, a single
character is uppercased, otherwise first character upper and the rest
lower. -/
def canon (el : String) : String :=
  match el.data with
  | [] => el
  | [c] => ⟨[c.toUpper]⟩
  | c :: rest => ⟨c.toUpper :: rest.map Char.toLower⟩

/-- The per-row test of `mol2_has_metal` on an already-stripped line: at
least six whitespace-separated fields, and the alphabetic part of the
name field (index 1) or of the type field (index 5), canonicalized,
is a metal symbol. -/
def rowIsMetal (ls : String) : Bool :=
  let parts := pySplit ls
  if 6 ≤ parts.length then
    metals.contains (canon (onlyAlpha (parts.getD 1 ""))) ||
      metals.contains (canon (onlyAlpha (parts.getD 5 "")))
  else
    false

/-- `line.strip().upper().startswith("@<TRIPOS>ATOM")`. -/
def isAtomMarker (line : String) : Bool :=
  pyStartsWith (pyUpper (pyStrip line)) "@<TRIPOS>ATOM"

/-- `line.strip().upper().startswith("@<TRIPOS>BOND")`. -/
def isBondMarker (line : String) : Bool :=
  pyStartsWith (pyUpper (pyStrip line)) "@<TRIPOS>BOND"

/-- The body of the `if in_atom and ls:` branch: non-empty stripped line
that passes the metal row test. -/
def mol2RowMetal (line : String) : Bool :=
  !(pyStrip line).data.isEmpty && rowIsMetal (pyStrip line)

/-- The scanning loop of `mol2_has_metal`, with the `in_atom` flag made
explicit.  Encountering the bond marker breaks the loop (result
`false`); the atom marker sets the flag and is itself skipped. -/
def mol2ScanAux : List String → Bool → Bool
  | [], _ => false
  | line :: rest, inAtom =>
    if isAtomMarker line then mol2ScanAux rest true
    else if isBondMarker line then false
    else if inAtom && mol2RowMetal line then true
    else mol2ScanAux rest inAtom

/-- `mol2_has_metal`: the file's lines when it could be read and parsed,
`none` when opening or reading raised — in which case the function is
conservative and reports a metal. -/
def mol2_has_metal : Option (List String) → Bool
  | none => true
  | some lines => mol2ScanAux lines false

/-- The atom rows the scan can reach, per the claim's wording: lines
strictly after the first atom-table marker, cut off at the first
bond-table marker. -/
def mol2AtomRows (lines : List String) : List String :=
  ((lines.takeWhile fun l => !isBondMarker l).dropWhile fun l => !isAtomMarker l).drop 1

/-- Declarative reading of the Metal Detector claim: some reachable atom
row, itself not an atom-table marker, is non-empty and passes the metal
row test. -/
def mol2MetalSpec (lines : List String) : Bool :=
  (mol2AtomRows lines).any fun l => !isAtomMarker l && mol2RowMetal l

/-! ## Leap Runner (`run_tleap`, source lines 45-68) -/

/-- Outcome of one tleap subprocess invocation together with the state of
the `<prefix>.prmtop` file it should have produced: the subprocess exit
status, whether `os.path.isfile` holds of the topology file afterwards,
and `os.path.getsize` of it. -/
structure TleapOutcome where
  returncode : Nat
  prmtopExists : Bool
  prmtopSize : Nat
deriving DecidableEq

/-- The success decision of `run_tleap`: `return False` on a non-zero
exit, then `return False` when the topology file is missing or empty,
else `return True`. -/
def run_tleap_ok (o : TleapOutcome) : Bool :=
  if o.returncode ≠ 0 then false
  else if !o.prmtopExists || o.prmtopSize == 0 then false
  else true

/-- The lines `run_tleap` writes to `leap.in`: one `source` line per
element of `sources`, in order, followed by the fixed load/save block
(`pfx` models the Python variable named after the output prefix). -/
def leapScript (pfx mol2_fn frcmod_fn : String) (sources : List String) : List String :=
  (sources.map fun s => "source " ++ s) ++
    ["",
     "LIG = loadMol2 " ++ mol2_fn,
     "loadAmberParams " ++ frcmod_fn,
     "saveAmberParm LIG " ++ pfx ++ ".prmtop " ++ pfx ++ ".rst7",
     "quit"]

/-- `run_tleap` as a whole: the script it writes to `leap.in` and the
boolean it returns, given the observed subprocess/file outcome. -/
def run_tleap (pfx mol2_fn frcmod_fn : String) (sources : List String)
    (o : TleapOutcome) : List String × Bool :=
  (leapScript pfx mol2_fn frcmod_fn sources, run_tleap_ok o)

/-- A line of `leap.in` that loads a force-field source. -/
def isSourceLine (l : String) : Bool :=
  pyStartsWith l "source "

/-! ## `main`'s orchestration (source lines 71-148) -/

/-- One external subprocess call made by `main`, with the arguments that
matter to the claims: for tleap the structure/parameter files and the
source list handed to `run_tleap`, for antechamber and parmchk2 their
input and output paths. -/
inductive Call where
  | tleap (mol2_fn frcmod_fn : String) (sources : List String)
  | antechamber (input output : String)
  | parmchk2 (input output : String)
deriving DecidableEq

/-- Environment of one run: the outcomes of the external calls `main` can
make and of the reads it performs.  `mol2File` is the content of the
structure file as the Metal Detector sees it (`none` = read error);
`antechamberRC`/`parmchk2RC` are the exit statuses of the two fallback
tools; `parseOk` is whether `AmberParm` parses the topology. -/
structure RunEnv where
  tleap1 : TleapOutcome
  mol2File : Option (List String)
  antechamberRC : Nat
  parmchk2RC : Nat
  tleap2 : TleapOutcome
  parseOk : Bool

/-- The control flow of `main` after input validation, as a function from
the environment to the trace of subprocess calls and the exit status
(0 = fell through to the end, 1 = `sys.exit(1)`). -/
def mainRun (pfx mol2_fn frcmod_fn leap_prot leap_lipid leap_gaff : String)
    (env : RunEnv) : List Call × Nat :=
  let firstCall := Call.tleap mol2_fn frcmod_fn [leap_prot, leap_lipid, leap_gaff]
  if run_tleap_ok env.tleap1 then
    ([firstCall], if env.parseOk then 0 else 1)
  else if mol2_has_metal env.mol2File then
    ([firstCall], 1)
  else
    let gaff_mol2 := pfx ++ "_gaff.mol2"
    let gaff_frcmod := pfx ++ ".frcmod"
    let anteCall := Call.antechamber mol2_fn gaff_mol2
    if env.antechamberRC ≠ 0 then
      ([firstCall, anteCall], 1)
    else
      let parmCall := Call.parmchk2 gaff_mol2 gaff_frcmod
      if env.parmchk2RC ≠ 0 then
        ([firstCall, anteCall, parmCall], 1)
      else
        let retryCall := Call.tleap gaff_mol2 gaff_frcmod [leap_prot, leap_gaff]
        if run_tleap_ok env.tleap2 then
          ([firstCall, anteCall, parmCall, retryCall], if env.parseOk then 0 else 1)
        else
          ([firstCall, anteCall, parmCall, retryCall], 1)

/-- Effect of the parmchk2 call on the working directory's file store:
it writes its output under the name `<pfx>.frcmod`, replacing whatever
contents that name held before. -/
def applyParmchk2 (fs : String → String) (pfx out : String) : String → String :=
  fun n => if n = pfx ++ ".frcmod" then out else fs n

/-! ## Topology Post-Processor, extraction pass (source lines 183-196) -/

/-- A stripped line that turns the extraction block on: it starts with
`[ defaults ]` or with `[ atomtypes ]`. -/
def extTrigger (line : String) : Bool :=
  pyStartsWith (pyStrip line) "[ defaults ]" || pyStartsWith (pyStrip line) "[ atomtypes ]"

/-- A stripped line that breaks the extraction loop when the block is on:
bracketed but not an extraction trigger. -/
def extTerminator (line : String) : Bool :=
  pyStartsWith (pyStrip line) "[" && !extTrigger line

/-- The extraction loop of step 8, with the `in_block` flag explicit.
A trigger line switches the block on and is written; inside the block a
bracketed non-`[ atomtypes ]` line breaks before being written; other
lines are written exactly when the block is on. -/
def extractGo : List String → Bool → List String
  | [], _ => []
  | line :: rest, inBlock =>
    if pyStartsWith (pyStrip line) "[ defaults ]" ||
        pyStartsWith (pyStrip line) "[ atomtypes ]" then
      line :: extractGo rest true
    else if inBlock && pyStartsWith (pyStrip line) "[" &&
        !pyStartsWith (pyStrip line) "[ atomtypes ]" then
      []
    else if inBlock then
      line :: extractGo rest true
    else
      extractGo rest false

/-- The full extraction pass: the lines written to
`<prefix>_forcefield.itp`, as a function of the topology's lines. -/
def extractPass (lines : List String) : List String :=
  extractGo lines false

/-- The side file produced by one run of the extraction step.  The
destination is opened with mode "w", so the bytes written depend only on
the topology read, never on the side file's previous contents (the
second argument). -/
def extractRun (topo _oldSide : List String) : List String :=
  extractPass topo

/-- The claim's reading of the extraction pass, verbatim: copy from the
first trigger line up to, excluding, the first subsequent bracketed line
that does not start with `[ atomtypes ]`. -/
def claimExtractOrig (lines : List String) : List String :=
  match lines.dropWhile (fun l => !extTrigger l) with
  | [] => []
  | h :: t =>
    h :: t.takeWhile fun l =>
      !(pyStartsWith (pyStrip l) "[" && !pyStartsWith (pyStrip l) "[ atomtypes ]")

/-- The amended reading: copy from the first trigger line up to,
excluding, the first subsequent bracketed line that starts with neither
`[ defaults ]` nor `[ atomtypes ]` (i.e. the first terminator), at which
point extraction stops for good. -/
def claimExtractAmended (lines : List String) : List String :=
  match lines.dropWhile (fun l => !extTrigger l) with
  | [] => []
  | h :: t => h :: t.takeWhile fun l => !extTerminator l

/-! ## Topology Post-Processor, in-place rewrite pass (source lines 198-218) -/

/-- The `keep` set of step 9. -/
def keepHeaders : List String :=
  ["[ moleculetype ]", "[ atoms ]", "[ bonds ]", "[ pairs ]", "[ angles ]", "[ dihedrals ]"]

/-- The rewrite loop of step 9, with the `write` flag explicit: a line
whose stripped form starts with a kept header switches writing on;
otherwise a bracketed stripped line not exactly in `keep` switches
writing off while `write` is on; a line is kept exactly when `write` is
on after these updates. -/
def rewriteGo : List String → Bool → List String
  | [], _ => []
  | line :: rest, write =>
    if keepHeaders.any (fun h => pyStartsWith (pyStrip line) h) then
      line :: rewriteGo rest true
    else if write && pyStartsWith (pyStrip line) "[" &&
        !keepHeaders.contains (pyStrip line) then
      rewriteGo rest false
    else if write then
      line :: rewriteGo rest true
    else
      rewriteGo rest false

/-- The full rewrite pass: the lines written back to `<prefix>.itp`. -/
def rewritePass (lines : List String) : List String :=
  rewriteGo lines false

/-- Declarative reading of the rewrite claim, as a state machine over
lines: a bracketed line starts a new section which is kept exactly when
the stripped header is in the allow-list; a non-bracketed line is kept
exactly when the current section is kept (lines before any header are
dropped). -/
def rewriteSpecGo : List String → Bool → List String
  | [], _ => []
  | line :: rest, inKept =>
    if pyStartsWith (pyStrip line) "[" then
      if keepHeaders.contains (pyStrip line) then
        line :: rewriteSpecGo rest true
      else
        rewriteSpecGo rest false
    else if inKept then
      line :: rewriteSpecGo rest true
    else
      rewriteSpecGo rest false

/-- The declarative rewrite pass, starting outside any section. -/
def rewriteSpec (lines : List String) : List String :=
  rewriteSpecGo lines false

/-- Well-formedness of a topology line for the rewrite claim: a bracketed
stripped line is an exact allow-listed header, or has no allow-listed
header as a prefix.  (It rules out hybrids like "[ atoms ] junk" that
prefix-match a kept header without being one.) -/
def RewriteWF (line : String) : Prop :=
  pyStartsWith (pyStrip line) "[" = true →
    keepHeaders.contains (pyStrip line) = true ∨
      ∀ h ∈ keepHeaders, pyStartsWith (pyStrip line) h = false

/-! ## Theorems -/

/-- C1: `run_tleap` returns true iff the tleap subprocess exits with
status zero and the `<prefix>.prmtop` file exists and has non-zero size;
in particular a zero exit with an absent or zero-byte topology file
yields false. -/
theorem C1_run_tleap_success_iff
    (pfx mol2_fn frcmod_fn : String) (sources : List String) (o : TleapOutcome) :
    (run_tleap pfx mol2_fn frcmod_fn sources o).2 = true ↔
      o.returncode = 0 ∧ o.prmtopExists = true ∧ 0 < o.prmtopSize := by
  rcases o with ⟨rc, ex, sz⟩
  simp only [run_tleap, run_tleap_ok]
  rcases ex with _ | _ <;> by_cases hrc : rc = 0 <;> by_cases hsz : sz = 0 <;>
    (simp [hrc, hsz]; all_goals omega)

/-- C8: the extraction pass is a deterministic function of the topology's
contents: its output does not depend on the side file's previous
contents, so rerunning it against the same topology writes byte-identical
side-file contents. -/
theorem C8_extraction_deterministic (topo s t : List String) :
    extractRun topo s = extractRun topo t ∧
      extractRun topo (extractRun topo s) = extractRun topo s :=
  ⟨rfl, rfl⟩

/-- C3: when the first tleap attempt fails and a metal is detected, the
process exits with status 1 and the trace holds exactly the single first
tleap call — no antechamber, no parmchk2, no second tleap attempt. -/
theorem C3_metal_guard_exit
    (pfx mol2_fn frcmod_fn prot lipid gaff : String) (env : RunEnv)
    (h1 : run_tleap_ok env.tleap1 = false)
    (h2 : mol2_has_metal env.mol2File = true) :
    mainRun pfx mol2_fn frcmod_fn prot lipid gaff env =
      ([Call.tleap mol2_fn frcmod_fn [prot, lipid, gaff]], 1) := by
  simp [mainRun, h1, h2]

/-- Witness for C3 at a concrete environment: first attempt exits 1, the
MOL2 file is unreadable (so the Metal Detector reports a metal). -/
theorem C3_metal_guard_exit_witness :
    mainRun "P" "m.mol2" "f.frcmod" "prot.rc" "lipid.rc" "gaff.rc"
        ⟨⟨1, false, 0⟩, none, 0, 0, ⟨0, true, 3⟩, true⟩ =
      ([Call.tleap "m.mol2" "f.frcmod" ["prot.rc", "lipid.rc", "gaff.rc"]], 1) :=
  C3_metal_guard_exit "P" "m.mol2" "f.frcmod" "prot.rc" "lipid.rc" "gaff.rc"
    ⟨⟨1, false, 0⟩, none, 0, 0, ⟨0, true, 3⟩, true⟩ (by decide) (by decide)

/-- C4: when the first tleap attempt fails and no metal is detected:
if both fallback tools exit zero but the second tleap attempt also
fails, the process exits 1; and if antechamber (resp. parmchk2) exits
non-zero, the process exits 1 with no second tleap call in the trace. -/
theorem C4_fallback_failures_exit
    (pfx mol2_fn frcmod_fn prot lipid gaff : String) (env : RunEnv)
    (h1 : run_tleap_ok env.tleap1 = false)
    (h2 : mol2_has_metal env.mol2File = false) :
    (env.antechamberRC = 0 → env.parmchk2RC = 0 → run_tleap_ok env.tleap2 = false →
      mainRun pfx mol2_fn frcmod_fn prot lipid gaff env =
        ([Call.tleap mol2_fn frcmod_fn [prot, lipid, gaff],
          Call.antechamber mol2_fn (pfx ++ "_gaff.mol2"),
          Call.parmchk2 (pfx ++ "_gaff.mol2") (pfx ++ ".frcmod"),
          Call.tleap (pfx ++ "_gaff.mol2") (pfx ++ ".frcmod") [prot, gaff]], 1)) ∧
    (env.antechamberRC ≠ 0 →
      mainRun pfx mol2_fn frcmod_fn prot lipid gaff env =
        ([Call.tleap mol2_fn frcmod_fn [prot, lipid, gaff],
          Call.antechamber mol2_fn (pfx ++ "_gaff.mol2")], 1)) ∧
    (env.antechamberRC = 0 → env.parmchk2RC ≠ 0 →
      mainRun pfx mol2_fn frcmod_fn prot lipid gaff env =
        ([Call.tleap mol2_fn frcmod_fn [prot, lipid, gaff],
          Call.antechamber mol2_fn (pfx ++ "_gaff.mol2"),
          Call.parmchk2 (pfx ++ "_gaff.mol2") (pfx ++ ".frcmod")], 1)) := by
  refine ⟨fun ha hp ht => ?_, fun ha => ?_, fun ha hp => ?_⟩
  · simp [mainRun, h1, h2, ha, hp, ht]
  · simp [mainRun, h1, h2, ha]
  · simp [mainRun, h1, h2, ha, hp]

/-- Witness for C4 at concrete environments: all three failure shapes. -/
theorem C4_fallback_failures_exit_witness :
    mainRun "P" "m" "f" "pr" "li" "ga" ⟨⟨1, false, 0⟩, some [], 0, 0, ⟨2, true, 3⟩, true⟩ =
      ([Call.tleap "m" "f" ["pr", "li", "ga"],
        Call.antechamber "m" "P_gaff.mol2",
        Call.parmchk2 "P_gaff.mol2" "P.frcmod",
        Call.tleap "P_gaff.mol2" "P.frcmod" ["pr", "ga"]], 1) ∧
    mainRun "P" "m" "f" "pr" "li" "ga" ⟨⟨1, false, 0⟩, some [], 7, 0, ⟨0, true, 3⟩, true⟩ =
      ([Call.tleap "m" "f" ["pr", "li", "ga"],
        Call.antechamber "m" "P_gaff.mol2"], 1) ∧
    mainRun "P" "m" "f" "pr" "li" "ga" ⟨⟨1, false, 0⟩, some [], 0, 9, ⟨0, true, 3⟩, true⟩ =
      ([Call.tleap "m" "f" ["pr", "li", "ga"],
        Call.antechamber "m" "P_gaff.mol2",
        Call.parmchk2 "P_gaff.mol2" "P.frcmod"], 1) :=
  ⟨(C4_fallback_failures_exit "P" "m" "f" "pr" "li" "ga"
      ⟨⟨1, false, 0⟩, some [], 0, 0, ⟨2, true, 3⟩, true⟩ (by decide) (by decide)).1
      (by decide) (by decide) (by decide),
   (C4_fallback_failures_exit "P" "m" "f" "pr" "li" "ga"
      ⟨⟨1, false, 0⟩, some [], 7, 0, ⟨0, true, 3⟩, true⟩ (by decide) (by decide)).2.1
      (by decide),
   (C4_fallback_failures_exit "P" "m" "f" "pr" "li" "ga"
      ⟨⟨1, false, 0⟩, some [], 0, 9, ⟨0, true, 3⟩, true⟩ (by decide) (by decide)).2.2
      (by decide) (by decide)⟩

/-- Two candidate prefixes of equal length are mutually exclusive when
distinct. -/
theorem prefix_excl (p q u : List Char) (hlen : p.length = q.length) (hne : p ≠ q)
    (hp : List.isPrefixOf p u = true) : List.isPrefixOf q u = false := by
  rw [List.isPrefixOf_iff_prefix] at hp
  rw [Bool.eq_false_iff, ne_eq, List.isPrefixOf_iff_prefix]
  intro hq
  apply hne
  rw [List.prefix_iff_eq_take] at hp hq
  rw [hp, hq, hlen]

/-- A line recognised as the atom-table marker is not the bond-table
marker. -/
theorem atomMarker_not_bondMarker (l : String) (h : isAtomMarker l = true) :
    isBondMarker l = false := by
  rw [isAtomMarker, pyStartsWith] at h
  rw [isBondMarker, pyStartsWith]
  exact prefix_excl _ _ _ (by decide) (by decide) h

/-- Once the `in_atom` flag is on, the scan reports a metal iff some line
before the first bond marker, other than an atom marker, passes the
metal row test. -/
theorem mol2ScanAux_inAtom (lines : List String) :
    mol2ScanAux lines true =
      (lines.takeWhile fun l => !isBondMarker l).any
        (fun l => !isAtomMarker l && mol2RowMetal l) := by
  induction lines with
  | nil => rfl
  | cons line rest ih =>
    by_cases hA : isAtomMarker line = true
    · have hB := atomMarker_not_bondMarker line hA
      simp [mol2ScanAux, hA, hB, List.takeWhile_cons, ih]
    · by_cases hB : isBondMarker line = true
      · simp [mol2ScanAux, hA, hB, List.takeWhile_cons]
      · by_cases hM : mol2RowMetal line = true
        · simp [mol2ScanAux, hA, hB, hM, List.takeWhile_cons]
        · simp [mol2ScanAux, hA, hB, hM, List.takeWhile_cons, ih]

/-- The scan started outside the atom table agrees with the declarative
reading. -/
theorem mol2ScanAux_start (lines : List String) :
    mol2ScanAux lines false = mol2MetalSpec lines := by
  induction lines with
  | nil => rfl
  | cons line rest ih =>
    by_cases hA : isAtomMarker line = true
    · have hB := atomMarker_not_bondMarker line hA
      simp [mol2ScanAux, hA, hB, mol2MetalSpec, mol2AtomRows, List.takeWhile_cons,
        List.dropWhile_cons, mol2ScanAux_inAtom]
    · by_cases hB : isBondMarker line = true
      · simp [mol2ScanAux, hA, hB, mol2MetalSpec, mol2AtomRows, List.takeWhile_cons]
      · simp [mol2ScanAux, hA, hB, mol2MetalSpec, mol2AtomRows, List.takeWhile_cons,
          List.dropWhile_cons, ih]

/-- C2: the Metal Detector returns true on a read/parse error; on a
readable file it returns true iff some row strictly between the
atom-table marker and the bond-table marker — itself not a marker, with
at least six whitespace-separated fields — has a name or type field
whose alphabetic part, canonicalized, is a metal symbol; and a row with
fewer than six fields never passes the row test. -/
theorem C2_metal_detector :
    mol2_has_metal none = true ∧
    (∀ lines, mol2_has_metal (some lines) = mol2MetalSpec lines) ∧
    (∀ ls, (pySplit ls).length < 6 → rowIsMetal ls = false) := by
  refine ⟨rfl, fun lines => mol2ScanAux_start lines, fun ls h => ?_⟩
  simp only [rowIsMetal]
  rw [if_neg (by omega)]

/-- Witness for C2: a concrete iron-bearing MOL2 body, and a concrete
short row. -/
theorem C2_metal_detector_witness :
    mol2_has_metal (some ["@<TRIPOS>ATOM", "1 FE1 0.0 0.0 0.0 Fe 1 LIG 0.0"]) =
      mol2MetalSpec ["@<TRIPOS>ATOM", "1 FE1 0.0 0.0 0.0 Fe 1 LIG 0.0"] ∧
    rowIsMetal "1 FE1 0.0 0.0 Fe" = false :=
  ⟨C2_metal_detector.2.1 ["@<TRIPOS>ATOM", "1 FE1 0.0 0.0 0.0 Fe 1 LIG 0.0"],
   C2_metal_detector.2.2 "1 FE1 0.0 0.0 Fe" (by decide)⟩

/-- A mapped source line satisfies the source-line test. -/
theorem isSourceLine_source_append (s : String) : isSourceLine ("source " ++ s) = true := by
  simp [isSourceLine, pyStartsWith]

/-- If `p` is at most as long as `pre` and is not a prefix of `pre`,
it is not a prefix of `pre ++ rest` either. -/
theorem not_prefix_of_long_append (p pre rest : List Char)
    (hlen : p.length ≤ pre.length) (hnp : ¬ p <+: pre) : ¬ p <+: pre ++ rest := by
  intro h
  apply hnp
  rw [List.prefix_iff_eq_take] at h ⊢
  rw [List.take_append_of_le_length hlen] at h
  exact h

/-- The `loadMol2` line of the leap script is not a source line. -/
theorem isSourceLine_lig (m : String) : isSourceLine ("LIG = loadMol2 " ++ m) = false := by
  simp only [isSourceLine, pyStartsWith, String.data_append]
  rw [Bool.eq_false_iff, ne_eq, List.isPrefixOf_iff_prefix]
  exact not_prefix_of_long_append _ _ _ (by decide) (by decide)

/-- The `loadAmberParams` line of the leap script is not a source line. -/
theorem isSourceLine_load (m : String) : isSourceLine ("loadAmberParams " ++ m) = false := by
  simp only [isSourceLine, pyStartsWith, String.data_append]
  rw [Bool.eq_false_iff, ne_eq, List.isPrefixOf_iff_prefix]
  exact not_prefix_of_long_append _ _ _ (by decide) (by decide)

/-- The `saveAmberParm` line of the leap script is not a source line. -/
theorem isSourceLine_save (pfx : String) :
    isSourceLine ("saveAmberParm LIG " ++ pfx ++ ".prmtop " ++ pfx ++ ".rst7") = false := by
  simp only [isSourceLine, pyStartsWith, String.data_append, List.append_assoc]
  rw [Bool.eq_false_iff, ne_eq, List.isPrefixOf_iff_prefix]
  exact not_prefix_of_long_append _ _ _ (by decide) (by decide)

/-- The source lines of the generated leap script are exactly one
`source` line per element of `sources`, in order. -/
theorem leapScript_filter (pfx m f : String) (sources : List String) :
    (leapScript pfx m f sources).filter isSourceLine =
      sources.map fun s => "source " ++ s := by
  have h1 : ∀ x ∈ sources.map (fun s => "source " ++ s), isSourceLine x = true := by
    intro x hx
    obtain ⟨s, _, rfl⟩ := List.mem_map.mp hx
    exact isSourceLine_source_append s
  rw [leapScript, List.filter_append, List.filter_eq_self.mpr h1]
  simp [List.filter, isSourceLine_lig, isSourceLine_load, isSourceLine_save,
    show isSourceLine "" = false from by decide,
    show isSourceLine "quit" = false from by decide]

/-- Whatever happens, the first subprocess call of a run is the tleap
attempt with the full source list in the given order. -/
theorem mainRun_first_call (pfx m f prot lipid gaff : String) (env : RunEnv) :
    (mainRun pfx m f prot lipid gaff env).1.head? =
      some (Call.tleap m f [prot, lipid, gaff]) := by
  simp only [mainRun]
  repeat first | rfl | split

/-- C5: the first tleap attempt passes the sources in the order protein,
lipid, generic-organic; the fallback's second attempt passes exactly
protein then generic-organic (lipid dropped, relative order preserved);
and `run_tleap`'s script holds one `source` line per list element, in
exactly the list's order. -/
theorem C5_source_order
    (pfx mol2_fn frcmod_fn prot lipid gaff : String) (env : RunEnv)
    (sources : List String) :
    ((mainRun pfx mol2_fn frcmod_fn prot lipid gaff env).1.head? =
        some (Call.tleap mol2_fn frcmod_fn [prot, lipid, gaff])) ∧
    (run_tleap_ok env.tleap1 = false → mol2_has_metal env.mol2File = false →
      env.antechamberRC = 0 → env.parmchk2RC = 0 →
      (mainRun pfx mol2_fn frcmod_fn prot lipid gaff env).1 =
        [Call.tleap mol2_fn frcmod_fn [prot, lipid, gaff],
         Call.antechamber mol2_fn (pfx ++ "_gaff.mol2"),
         Call.parmchk2 (pfx ++ "_gaff.mol2") (pfx ++ ".frcmod"),
         Call.tleap (pfx ++ "_gaff.mol2") (pfx ++ ".frcmod") [prot, gaff]]) ∧
    ((leapScript pfx mol2_fn frcmod_fn sources).filter isSourceLine =
      sources.map fun s => "source " ++ s) := by
  refine ⟨mainRun_first_call pfx mol2_fn frcmod_fn prot lipid gaff env,
    fun h1 h2 ha hp => ?_,
    leapScript_filter pfx mol2_fn frcmod_fn sources⟩
  cases ht : run_tleap_ok env.tleap2 <;> simp [mainRun, h1, h2, ha, hp, ht]

/-- Witness for C5 at a concrete fallback run and a concrete source
list. -/
theorem C5_source_order_witness :
    (mainRun "P" "m" "f" "pr" "li" "ga"
        ⟨⟨1, false, 0⟩, some [], 0, 0, ⟨0, true, 3⟩, true⟩).1 =
      [Call.tleap "m" "f" ["pr", "li", "ga"],
       Call.antechamber "m" "P_gaff.mol2",
       Call.parmchk2 "P_gaff.mol2" "P.frcmod",
       Call.tleap "P_gaff.mol2" "P.frcmod" ["pr", "ga"]] ∧
    (leapScript "P" "m" "f" ["pr", "li", "ga"]).filter isSourceLine =
      ["source pr", "source li", "source ga"] :=
  ⟨(C5_source_order "P" "m" "f" "pr" "li" "ga"
      ⟨⟨1, false, 0⟩, some [], 0, 0, ⟨0, true, 3⟩, true⟩ ["pr", "li", "ga"]).2.1
      (by decide) (by decide) (by decide) (by decide),
   ((C5_source_order "P" "m" "f" "pr" "li" "ga"
      ⟨⟨1, false, 0⟩, some [], 0, 0, ⟨0, true, 3⟩, true⟩ ["pr", "li", "ga"]).2.2).trans
      (by decide)⟩

/-- Every string is a prefix of itself. -/
theorem pyStartsWith_self (s : String) : pyStartsWith s s = true := by
  rw [pyStartsWith, List.isPrefixOf_iff_prefix]

/-- A line that starts with an allow-listed header starts with an
opening bracket. -/
theorem keep_prefix_bracket (s h : String) (hmem : h ∈ keepHeaders)
    (hp : pyStartsWith s h = true) : pyStartsWith s "[" = true := by
  rw [pyStartsWith, List.isPrefixOf_iff_prefix] at hp ⊢
  have hb : "[".data <+: h.data := by
    fin_cases hmem <;> decide
  exact hb.trans hp

/-- With the `in_block` flag on, extraction copies lines up to the first
terminator. -/
theorem extractGo_inBlock (lines : List String) :
    extractGo lines true = lines.takeWhile fun l => !extTerminator l := by
  induction lines with
  | nil => rfl
  | cons line rest ih =>
    by_cases hD : pyStartsWith (pyStrip line) "[ defaults ]" = true <;>
    by_cases hA : pyStartsWith (pyStrip line) "[ atomtypes ]" = true <;>
    by_cases hB : pyStartsWith (pyStrip line) "[" = true <;>
    simp [extractGo, extTerminator, extTrigger, hD, hA, hB, List.takeWhile_cons, ih]

/-- The extraction pass equals the amended declarative description. -/
theorem extractGo_start (lines : List String) :
    extractGo lines false = claimExtractAmended lines := by
  induction lines with
  | nil => rfl
  | cons line rest ih =>
    by_cases hD : pyStartsWith (pyStrip line) "[ defaults ]" = true <;>
    by_cases hA : pyStartsWith (pyStrip line) "[ atomtypes ]" = true <;>
    simp [extractGo, claimExtractAmended, extTrigger, hD, hA, List.dropWhile_cons,
      extractGo_inBlock, ih]

/-- C6 counterexample: on a topology whose extraction block contains a
second `[ defaults ]` header, the extraction pass does not stop there —
it differs from the claim's stated cut-off rule ("the first subsequent
bracketed line that does not start with `[ atomtypes ]`"). -/
theorem C6_extraction_counterexample :
    extractPass ["[ defaults ]", "A", "[ defaults ]", "B", "[ x ]"] =
      ["[ defaults ]", "A", "[ defaults ]", "B"] ∧
    claimExtractOrig ["[ defaults ]", "A", "[ defaults ]", "B", "[ x ]"] =
      ["[ defaults ]", "A"] ∧
    extractPass ["[ defaults ]", "A", "[ defaults ]", "B", "[ x ]"] ≠
      claimExtractOrig ["[ defaults ]", "A", "[ defaults ]", "B", "[ x ]"] :=
  ⟨by decide, by decide, by decide⟩

/-- C6 (amended): the extraction pass copies exactly the lines from the
first line whose stripped form starts with `[ defaults ]` or
`[ atomtypes ]` up to, excluding, the first subsequent bracketed line
starting with neither of those two prefixes, at which point extraction
stops for good; on the spec's example it yields the `[ defaults ]`, `A`,
`[ atomtypes ]`, `B` lines. -/
theorem C6_extraction_amended :
    (∀ lines, extractPass lines = claimExtractAmended lines) ∧
    extractPass ["[ defaults ]", "A", "[ atomtypes ]", "B", "[ moleculetype ]", "C"] =
      ["[ defaults ]", "A", "[ atomtypes ]", "B"] :=
  ⟨fun lines => extractGo_start lines, by decide⟩

/-- The rewrite loop agrees with the declarative section state machine on
well-formed lines, whatever the current flag. -/
theorem rewriteGo_eq (lines : List String) :
    ∀ b, (∀ l ∈ lines, RewriteWF l) → rewriteGo lines b = rewriteSpecGo lines b := by
  induction lines with
  | nil => intro b _; rfl
  | cons line rest ih =>
    intro b hwf
    have hrest : ∀ l ∈ rest, RewriteWF l := fun l hl => hwf l (List.mem_cons_of_mem _ hl)
    by_cases hBr : pyStartsWith (pyStrip line) "[" = true
    · rcases hwf line (List.mem_cons_self _ _) hBr with hk | hnp
      · have hmem : pyStrip line ∈ keepHeaders := List.mem_of_elem_eq_true hk
        have hany : keepHeaders.any (fun h => pyStartsWith (pyStrip line) h) = true := by
          rw [List.any_eq_true]
          exact ⟨pyStrip line, hmem, pyStartsWith_self _⟩
        simp [rewriteGo, rewriteSpecGo, hany, hBr, hk, hmem, ih _ hrest]
      · have hany : keepHeaders.any (fun h => pyStartsWith (pyStrip line) h) = false := by
          rw [List.any_eq_false]
          intro x hx
          simp [hnp x hx]
        have hnmem : pyStrip line ∉ keepHeaders := by
          intro hm
          have h1 := hnp _ hm
          rw [pyStartsWith_self] at h1
          exact Bool.noConfusion h1
        have hcont : keepHeaders.contains (pyStrip line) = false := by
          rw [Bool.eq_false_iff, ne_eq]
          intro hc
          exact hnmem (List.mem_of_elem_eq_true hc)
        cases b <;> simp [rewriteGo, rewriteSpecGo, hany, hBr, hcont, hnmem, ih _ hrest]
    · have hany : keepHeaders.any (fun h => pyStartsWith (pyStrip line) h) = false := by
        rw [List.any_eq_false]
        intro x hx hc
        exact hBr (keep_prefix_bracket _ x hx hc)
      cases b <;> simp [rewriteGo, rewriteSpecGo, hany, hBr, ih _ hrest]

instance (l : String) : Decidable (RewriteWF l) :=
  inferInstanceAs (Decidable (pyStartsWith (pyStrip l) "[" = true →
    keepHeaders.contains (pyStrip l) = true ∨
      ∀ h ∈ keepHeaders, pyStartsWith (pyStrip l) h = false))

/-- C7: on a topology whose bracketed lines are exact section headers,
the in-place rewrite keeps exactly the sections whose header is in the
allow-list (moleculetype, atoms, bonds, pairs, angles, dihedrals) and
drops all others, preserving order. -/
theorem C7_rewrite_allowlist (lines : List String)
    (hwf : ∀ l ∈ lines, RewriteWF l) :
    rewritePass lines = rewriteSpec lines :=
  rewriteGo_eq lines false hwf

/-- Witness for C7 on the claim's topology: `[ defaults ]` and
`[ atomtypes ]` are removed in full, the latter three sections survive
in their original relative order. -/
theorem C7_rewrite_allowlist_witness :
    rewritePass ["[ defaults ]", "d", "[ atomtypes ]", "a", "[ moleculetype ]", "m",
        "[ atoms ]", "t", "[ bonds ]", "b"] =
      ["[ moleculetype ]", "m", "[ atoms ]", "t", "[ bonds ]", "b"] :=
  (C7_rewrite_allowlist ["[ defaults ]", "d", "[ atomtypes ]", "a", "[ moleculetype ]", "m",
      "[ atoms ]", "t", "[ bonds ]", "b"] (by decide)).trans (by decide)

/-- C10: headers without the interior spaces are matched by neither
pass: a line stripping to `[atoms]` is no extraction trigger, terminates
an extraction block, prefix-matches no kept header and is no exact kept
header; a line stripping to `[defaults]` likewise triggers nothing; and
on concrete topologies the extraction pass cuts at `[atoms]` while the
rewrite pass drops the `[atoms]` section entirely. -/
theorem C10_exact_header_spacing :
    (∀ line, pyStrip line = "[atoms]" →
      extTrigger line = false ∧ extTerminator line = true ∧
      keepHeaders.any (fun h => pyStartsWith (pyStrip line) h) = false ∧
      keepHeaders.contains (pyStrip line) = false) ∧
    (∀ line, pyStrip line = "[defaults]" →
      extTrigger line = false ∧ extTerminator line = true) ∧
    extractPass ["[ atomtypes ]", "x", "[atoms]", "y"] = ["[ atomtypes ]", "x"] ∧
    rewritePass ["[ moleculetype ]", "m", "[atoms]", "y", "[ bonds ]", "b"] =
      ["[ moleculetype ]", "m", "[ bonds ]", "b"] := by
  refine ⟨fun line h => ?_, fun line h => ?_, by decide, by decide⟩
  · simp only [extTerminator, extTrigger, h]
    decide
  · simp only [extTerminator, extTrigger, h]
    decide

/-- Witness for C10 at the concrete offending headers. -/
theorem C10_exact_header_spacing_witness :
    extTrigger "[atoms]" = false ∧ extTerminator "[atoms]" = true ∧
    extTrigger "[defaults]" = false :=
  ⟨(C10_exact_header_spacing.1 "[atoms]" (by decide)).1,
   (C10_exact_header_spacing.1 "[atoms]" (by decide)).2.1,
   (C10_exact_header_spacing.2.1 "[defaults]" (by decide)).1⟩

/-- C9: the parmchk2 output name on the fallback path is always
`<prefix>.frcmod` in the working directory, so when the user's original
parameter file has that very name there, the parmchk2 write replaces its
contents; the parmchk2 call precedes the second tleap attempt, which is
handed that same path. -/
theorem C9_fallback_overwrites_frcmod
    (fs : String → String) (out origBase : String)
    (pfx mol2_fn frcmod_fn prot lipid gaff : String) (env : RunEnv)
    (hname : origBase = pfx ++ ".frcmod")
    (h1 : run_tleap_ok env.tleap1 = false)
    (h2 : mol2_has_metal env.mol2File = false)
    (ha : env.antechamberRC = 0) (hp : env.parmchk2RC = 0) :
    applyParmchk2 fs pfx out origBase = out ∧
    (mainRun pfx mol2_fn frcmod_fn prot lipid gaff env).1 =
      [Call.tleap mol2_fn frcmod_fn [prot, lipid, gaff],
       Call.antechamber mol2_fn (pfx ++ "_gaff.mol2"),
       Call.parmchk2 (pfx ++ "_gaff.mol2") (pfx ++ ".frcmod"),
       Call.tleap (pfx ++ "_gaff.mol2") (pfx ++ ".frcmod") [prot, gaff]] := by
  constructor
  · simp [applyParmchk2, hname]
  · cases ht : run_tleap_ok env.tleap2 <;> simp [mainRun, h1, h2, ha, hp, ht]

/-- Witness for C9 at a concrete run whose original FRCMOD is named
`P.frcmod` in the working directory. -/
theorem C9_fallback_overwrites_frcmod_witness :
    applyParmchk2 (fun _ => "orig contents") "P" "new contents" "P.frcmod" =
      "new contents" ∧
    (mainRun "P" "m" "P.frcmod" "pr" "li" "ga"
        ⟨⟨1, false, 0⟩, some [], 0, 0, ⟨0, true, 3⟩, true⟩).1 =
      [Call.tleap "m" "P.frcmod" ["pr", "li", "ga"],
       Call.antechamber "m" "P_gaff.mol2",
       Call.parmchk2 "P_gaff.mol2" "P.frcmod",
       Call.tleap "P_gaff.mol2" "P.frcmod" ["pr", "ga"]] :=
  C9_fallback_overwrites_frcmod (fun _ => "orig contents") "new contents" "P.frcmod"
    "P" "m" "P.frcmod" "pr" "li" "ga"
    ⟨⟨1, false, 0⟩, some [], 0, 0, ⟨0, true, 3⟩, true⟩
    (by decide) (by decide) (by decide) (by decide) (by decide)
